import Mathlib

/-!
Verification of `GimpGradientMaker` (`src/app.py`).

Shallow embedding of the CSS-gradient → GIMP-gradient converter.
Python strings are embedded as `List Char` (ASCII scope), Python ints as
`ℤ`/`ℕ`, and raised exceptions as `Option`/`Except` failure values.

Python floats are embedded exactly: every float the program ever builds is
the result of dividing integers and averaging (`i / n`, `v / 255.0`,
`(l + r) / 2`), so each value is represented as an explicit fraction
(`PyFloat`, a numerator/denominator pair, kept executable) and the theorems
state the numeric relations through the rational value `PyFloat.toRat`.
-/

set_option maxHeartbeats 1000000

/-- `String.toList`, used to write concrete Python strings in statements. -/
def chars (s : String) : List Char := s.toList

/-- An exact Python float as produced by this program: a quotient of an
integer by a positive integer, not normalised. -/
structure PyFloat where
  num : ℤ
  den : ℕ
deriving DecidableEq

/-- Numeric value of a `PyFloat`; float comparisons in the spec are
comparisons of these rational values. -/
def PyFloat.toRat (p : PyFloat) : ℚ := (p.num : ℚ) / (p.den : ℚ)

/-- Python float division `i / n` of integers (as in `i / num_segments`). -/
def pfDiv (i : ℤ) (n : ℕ) : PyFloat := ⟨i, n⟩

/-- Python `(a + b) / 2` on floats, written as an exact fraction. -/
def pfAvg (a b : PyFloat) : PyFloat :=
  ⟨a.num * b.den + b.num * a.den, a.den * b.den * 2⟩

/-- ASCII whitespace as recognised by Python's `str.strip`, `int(·, 16)` and
the regex class `\s` (space, tab, newline, carriage return, vertical tab,
form feed). -/
def isPySpace (c : Char) : Bool :=
  c = ' ' || c = '\t' || c = '\n' || c = '\r' || c = '\x0b' || c = '\x0c'

/-- Python `str.strip()` (ASCII scope): drop whitespace from both ends. -/
def pyStrip (s : List Char) : List Char :=
  ((s.dropWhile isPySpace).reverse.dropWhile isPySpace).reverse

/-- Value of one ASCII hexadecimal digit, as accepted by Python `int(·, 16)`. -/
def hexDigit? (c : Char) : Option Nat :=
  if 48 ≤ c.toNat ∧ c.toNat ≤ 57 then some (c.toNat - 48)
  else if 97 ≤ c.toNat ∧ c.toNat ≤ 102 then some (c.toNat - 87)
  else if 65 ≤ c.toNat ∧ c.toNat ≤ 70 then some (c.toNat - 55)
  else none

/-- Digit run of a base-16 literal after the first digit: single underscores
are allowed between digits only (Python `int(·, 16)` grammar). The
accumulator holds the value of the digits already read. -/
def hexCoreAux : List Char → Nat → Option Nat
  | [], acc => some acc
  | [c], acc => (hexDigit? c).map (fun d => 16 * acc + d)
  | c :: c2 :: rest, acc =>
    if c = '_' then (hexDigit? c2).bind (fun d => hexCoreAux rest (16 * acc + d))
    else (hexDigit? c).bind (fun d => hexCoreAux (c2 :: rest) (16 * acc + d))

/-- Nonempty digit run of a base-16 literal: first character must be a
digit, then `hexCoreAux`. -/
def hexCore : List Char → Option Nat
  | [] => none
  | c :: rest => (hexDigit? c).bind (fun d => hexCoreAux rest d)

/-- Digits after a `0x`/`0X` base marker; Python additionally allows a single
underscore directly after the marker. -/
def after0x : List Char → Option Nat
  | [] => hexCore []
  | c :: rest => if c = '_' then hexCore rest else hexCore (c :: rest)

/-- Unsigned part of a base-16 literal: optional `0x`/`0X` marker, then
digits. -/
def afterSign : List Char → Option Nat
  | [] => hexCore []
  | [c] => hexCore [c]
  | c0 :: c1 :: rest =>
    if c0 = '0' ∧ (c1 = 'x' ∨ c1 = 'X') then after0x rest
    else hexCore (c0 :: c1 :: rest)

/-- Python `int(s, 16)` (ASCII scope): strip surrounding whitespace, read an
optional sign, an optional `0x` marker, and a nonempty underscore-separated
hex digit run; `none` models the raised `ValueError`. -/
def pyIntHex (s : List Char) : Option Int :=
  match pyStrip s with
  | [] => none
  | c :: rest =>
    if c = '+' then (afterSign rest).map (fun n => (n : Int))
    else if c = '-' then (afterSign rest).map (fun n => -(n : Int))
    else (afterSign (c :: rest)).map (fun n => (n : Int))

/-- Python slice `s[i:j]` for `i ≤ j` (clamped at the end of the string). -/
def pySlice (s : List Char) (i j : Nat) : List Char := (s.drop i).take (j - i)

/-- `hex_to_rgb` from `src/app.py`: strip all leading `#` (Python
`lstrip('#')`), read the slices `[0:2]`, `[2:4]`, `[4:6]` as base-16
integers, divide each by `255.0`.  `none` models the `ValueError` raised by
`int` on a malformed slice (the spec's `InvalidColorError`). -/
def hex_to_rgb (s : List Char) : Option (PyFloat × PyFloat × PyFloat) :=
  let t := s.dropWhile (fun c => c = '#')
  match pyIntHex (pySlice t 0 2), pyIntHex (pySlice t 2 4), pyIntHex (pySlice t 4 6) with
  | some r, some g, some b => some (⟨r, 255⟩, ⟨g, 255⟩, ⟨b, 255⟩)
  | _, _, _ => none

/-- Rational view of `hex_to_rgb`'s channels. -/
def hexRGB (s : List Char) : Option (ℚ × ℚ × ℚ) :=
  (hex_to_rgb s).map (fun t => (t.1.toRat, t.2.1.toRat, t.2.2.toRat))

example : hex_to_rgb (chars "#ff0000") = some (⟨255, 255⟩, ⟨0, 255⟩, ⟨0, 255⟩) := by decide
example : hex_to_rgb (chars "#xyz123") = none := by decide
example : hex_to_rgb (chars "##ff0000") = some (⟨255, 255⟩, ⟨0, 255⟩, ⟨0, 255⟩) := by decide
example : hex_to_rgb (chars "#ff0000zz") = some (⟨255, 255⟩, ⟨0, 255⟩, ⟨0, 255⟩) := by decide
example : pyIntHex (chars " 0x_ff ") = some 255 := by decide
example : pyIntHex (chars "-10") = some (-16) := by decide
example : pyIntHex (chars "1__2") = none := by decide
example : pyIntHex (chars "f_") = none := by decide

/-! ## The gradient-string parser (`parse_css_gradient`)

`src/app.py` anchors `re.match(r'linear-gradient\(([^,]+),\s*(.+)\)', s)`
at the start of `s` (a prefix match: trailing text after the matched part
is allowed).  The pattern is embedded directly: the literal
`linear-gradient(`, then group 1 = the nonempty run of non-comma characters
before the first comma (`[^,]+` cannot cross a comma, so there is no
backtracking choice), the comma, then `\s*(.+)\)` with the engine's greedy
backtracking: `\s*` consumes as much whitespace as possible and gives
characters back one at a time, `.+` (which never matches a newline) is
greedy, so group 2 ends at the last `)` inside the maximal newline-free
run. -/

/-- Index of the last occurrence of `c` in `s`, if any. -/
def lastIdxOf (c : Char) : List Char → Option Nat
  | [] => none
  | x :: xs =>
    match lastIdxOf c xs with
    | some i => some (i + 1)
    | none => if x = c then some 0 else none

/-- Match `(.+)\)` as a prefix of `r` (greedy `.`, which excludes `'\n'`):
group 2 is everything before the last `)` of the maximal newline-free run,
and must be nonempty. -/
def tryDotClose (r : List Char) : Option (List Char) :=
  let p := r.takeWhile (fun c => c ≠ '\n')
  match lastIdxOf ')' p with
  | some i => if 1 ≤ i then some (p.take i) else none
  | none => none

/-- Backtracking of `\s*` before `(.+)\)`: try consuming `j` whitespace
characters, largest `j` first. -/
def wsTry : Nat → List Char → Option (List Char)
  | 0, r => tryDotClose r
  | j + 1, r =>
    match tryDotClose (r.drop (j + 1)) with
    | some g => some g
    | none => wsTry j r

/-- Match `\s*(.+)\)` as a prefix of `r`, returning group 2. -/
def matchTail (r : List Char) : Option (List Char) :=
  wsTry ((r.takeWhile isPySpace).length) r

/-- Split at the first occurrence of `c`: `some (before, after)`. -/
def splitFirst (c : Char) : List Char → Option (List Char × List Char)
  | [] => none
  | x :: xs =>
    if x = c then some ([], xs)
    else
      match splitFirst c xs with
      | some (a, b) => some (x :: a, b)
      | none => none

/-- `re.match(r'linear-gradient\(([^,]+),\s*(.+)\)', s)`: `none` when the
regex does not match, otherwise the two captured groups. -/
def reMatch (s : List Char) : Option (List Char × List Char) :=
  if s.take 16 = chars "linear-gradient(" then
    match splitFirst ',' (s.drop 16) with
    | some (g1, r) =>
      if g1 = [] then none
      else
        match matchTail r with
        | some g2 => some (g1, g2)
        | none => none
    | none => none
  else none

/-- The distinct failure modes of the pipeline, one per `raise` site /
failing library call, with the spec's names (`src/app.py` raises plain
`ValueError`s at these points). -/
inductive Err where
  | formatError
  | unsupportedDirectionError
  | invalidColorError
deriving DecidableEq

/-- View of `Except` as a sum, to derive decidable equality. -/
def exceptToSum {ε α : Type} : Except ε α → ε ⊕ α
  | .error e => .inl e
  | .ok a => .inr a

instance {ε α : Type} [DecidableEq ε] [DecidableEq α] : DecidableEq (Except ε α) := fun a b =>
  decidable_of_iff (exceptToSum a = exceptToSum b)
    (by cases a <;> cases b <;> simp [exceptToSum])

/-- `startsWithList n h`: `n` is an initial run of `h`. -/
def startsWithList : List Char → List Char → Bool
  | [], _ => true
  | _ :: _, [] => false
  | a :: as, b :: bs => a = b && startsWithList as bs

/-- Python's substring containment `n in h`. -/
def strIn (n : List Char) : List Char → Bool
  | [] => decide (n = [])
  | c :: rest => startsWithList n (c :: rest) || strIn n rest

/-- Python `str.split(sep)` helper: `cur` is the reversed chunk read so far. -/
def splitOnCharAux (c : Char) : List Char → List Char → List (List Char)
  | [], cur => [cur.reverse]
  | x :: xs, cur =>
    if x = c then cur.reverse :: splitOnCharAux c xs []
    else splitOnCharAux c xs (x :: cur)

/-- Python `s.split(c)` for a one-character separator: keeps empty chunks,
`"".split(c) == ['']`. -/
def splitOnChar (c : Char) (s : List Char) : List (List Char) :=
  splitOnCharAux c s []

/-- `parse_css_gradient` from `src/app.py`: regex match (else
`FormatError`), then the `'to right' in direction` substring test (else
`UnsupportedDirectionError`), then split the second group on commas and
strip each token. -/
def parse_css_gradient (s : List Char) : Except Err (List (List Char)) :=
  match reMatch s with
  | none => .error .formatError
  | some (dir, colorsStr) =>
    if strIn (chars "to right") dir then
      .ok ((splitOnChar ',' colorsStr).map pyStrip)
    else .error .unsupportedDirectionError

example : parse_css_gradient (chars "linear-gradient(to right, #fbb040, #fdb453)") =
    .ok [chars "#fbb040", chars "#fdb453"] := by decide
example : parse_css_gradient (chars "linear-gradient(to left, #fff, #000)") =
    .error .unsupportedDirectionError := by decide
example : parse_css_gradient (chars "linear-gradient(to right top, #fff, #000)") =
    .ok [chars "#fff", chars "#000"] := by decide
example : parse_css_gradient (chars "radial-gradient(to right, #fff, #000)") =
    .error .formatError := by decide
example : parse_css_gradient (chars "linear-gradient(to right, #fbb040)") =
    .ok [chars "#fbb040"] := by decide
example : reMatch (chars "linear-gradient(a, )") = some (chars "a", chars " ") := by decide

/-! ## The segment builder and serializer (`create_gimp_gradient`) -/

/-- One gradient segment as assembled in the loop of
`create_gimp_gradient`: positions, left/right RGBA, and the four constant
integer selectors. -/
structure Segment where
  left : PyFloat
  mid : PyFloat
  right : PyFloat
  lr : PyFloat
  lg : PyFloat
  lb : PyFloat
  la : PyFloat
  rr : PyFloat
  rg : PyFloat
  rb : PyFloat
  ra : PyFloat
  blend : ℤ
  coloring : ℤ
  ltype : ℤ
  rtype : ℤ
deriving DecidableEq

/-- Loop body of `create_gimp_gradient` for index `i` (`n` is
`num_segments`, positive whenever the loop runs): convert `colors[i]` and
`colors[i+1]`, compute `i / n`, `(i+1) / n` and their average, alpha `1.0`,
all four selectors `0`. `none` models the `ValueError` from a bad color. -/
def segAt (colors : List (List Char)) (n : ℕ) (i : ℕ) : Option Segment :=
  match hex_to_rgb (colors.getD i []), hex_to_rgb (colors.getD (i + 1) []) with
  | some (cr, cg, cb), some (dr, dg, db) =>
    some { left := pfDiv i n, mid := pfAvg (pfDiv i n) (pfDiv (i + 1) n), right := pfDiv (i + 1) n,
           lr := cr, lg := cg, lb := cb, la := ⟨1, 1⟩,
           rr := dr, rg := dg, rb := db, ra := ⟨1, 1⟩,
           blend := 0, coloring := 0, ltype := 0, rtype := 0 }
  | _, _ => none

/-- The segments for indices `i, i+1, ..., i+k-1`, in order; the first
failing color conversion aborts the loop (the raised `ValueError`). -/
def segsFrom (colors : List (List Char)) (n : ℕ) : Nat → Nat → Option (List Segment)
  | _, 0 => some []
  | i, k + 1 =>
    match segAt colors n i, segsFrom colors n (i + 1) k with
    | some s, some rest => some (s :: rest)
    | _, _ => none

/-- The segment list of `create_gimp_gradient`: `for i in range(len(colors) - 1)`. -/
def buildSegments (colors : List (List Char)) : Option (List Segment) :=
  segsFrom colors (colors.length - 1) 0 (colors.length - 1)

/-- A value appearing on a serialized segment line: a Python float or int
(`str` renders the two differently). -/
inductive PyVal where
  | f : PyFloat → PyVal
  | i : ℤ → PyVal
deriving DecidableEq

/-- Decimal digit character (only ever applied to `d ≤ 9`). -/
def digitCh (d : ℕ) : Char :=
  if d = 0 then '0' else if d = 1 then '1' else if d = 2 then '2' else if d = 3 then '3'
  else if d = 4 then '4' else if d = 5 then '5' else if d = 6 then '6' else if d = 7 then '7'
  else if d = 8 then '8' else '9'

/-- Decimal digits of `n`, most significant first; `fuel` bounds the
recursion and is always sufficient at the call site. -/
def natDigitsAux : Nat → Nat → List Char → List Char
  | 0, _, acc => acc
  | fuel + 1, n, acc =>
    if n < 10 then digitCh n :: acc
    else natDigitsAux fuel (n / 10) (digitCh (n % 10) :: acc)

/-- Decimal representation of a natural number (Python `str(n)` for `n ≥ 0`). -/
def natDigits (n : ℕ) : List Char := natDigitsAux (n + 1) n []

/-- Python `str` of an int. -/
def intStr (z : ℤ) : List Char :=
  if z < 0 then '-' :: natDigits z.natAbs else natDigits z.toNat

/-- `k` decimal digits of the fraction `rem / den`, by long division. -/
def fracDigits : Nat → Nat → Nat → List Char
  | 0, _, _ => []
  | k + 1, rem, den => digitCh (rem * 10 / den) :: fracDigits k (rem * 10 % den) den

/-- Fractional digits of `num / den` after the decimal point, trailing
zeros removed, at least one digit (Python prints floats with a decimal
point). -/
def fracPart (rem den : ℕ) : List Char :=
  let t := ((fracDigits 17 rem den).reverse.dropWhile (fun c => c = '0')).reverse
  if t = [] then ['0'] else t

/-- Rendering of a nonnegative exact float `num / den`. -/
def pyFloatStrNat (num den : ℕ) : List Char :=
  natDigits (num / den) ++ '.' :: fracPart (num % den) den

/-- Python `str` of a float, for the exact fractions this program builds:
sign, integer part, a decimal point, and the fractional digits of the exact
decimal expansion (truncated at 17 places, trailing zeros removed).  This
agrees with CPython's shortest-round-trip `repr` on every terminating
value the theorems below mention (`0.0`, `0.5`, `1.0`, ...); for
non-terminating expansions CPython prints the 64-bit rounding of the value
instead, which a rational embedding cannot reproduce digit-for-digit. -/
def pyFloatStr (p : PyFloat) : List Char :=
  if p.num < 0 then '-' :: pyFloatStrNat p.num.natAbs p.den
  else pyFloatStrNat p.num.toNat p.den

/-- Python `str` of a serialized value. -/
def pyValStr : PyVal → List Char
  | .f p => pyFloatStr p
  | .i z => intStr z

/-- The 15 values of a segment line, in the order they are written in the
`segment` list of `src/app.py`. -/
def segTokens (s : Segment) : List PyVal :=
  [.f s.left, .f s.mid, .f s.right,
   .f s.lr, .f s.lg, .f s.lb, .f s.la,
   .f s.rr, .f s.rg, .f s.rb, .f s.ra,
   .i s.blend, .i s.coloring, .i s.ltype, .i s.rtype]

/-- Python `sep.join(parts)` for a one-character separator. -/
def joinSep (c : Char) : List (List Char) → List Char
  | [] => []
  | [x] => x
  | x :: y :: rest => x ++ c :: joinSep c (y :: rest)

/-- One serialized segment line: `" ".join(map(str, segment))`. -/
def segLine (s : Segment) : List Char := joinSep ' ' ((segTokens s).map pyValStr)

/-- The `gradient_content` list of `create_gimp_gradient`: the three header
lines (note `num_segments = len(colors) - 1` is Python int arithmetic, so
the count line uses `ℤ`), then one line per segment. -/
def gradientLines (name : List Char) (colors : List (List Char)) : Option (List (List Char)) :=
  match buildSegments colors with
  | some segs =>
    some ([chars "GIMP Gradient", chars "Name: " ++ name,
           intStr ((colors.length : ℤ) - 1)] ++ segs.map segLine)
  | none => none

/-- `create_gimp_gradient`: the serialized file content,
`"\n".join(gradient_content)`. -/
def create_gimp_gradient (name : List Char) (colors : List (List Char)) : Option (List Char) :=
  (gradientLines name colors).map (joinSep '\n')

/-- The error-propagating part of `main` in `src/app.py`: parse, then build;
any raised error aborts before the file write. -/
def runPipeline (css name : List Char) : Except Err (List Char) :=
  match parse_css_gradient css with
  | .error e => .error e
  | .ok colors =>
    match create_gimp_gradient name colors with
    | some content => .ok content
    | none => .error .invalidColorError

/-- The content handed to `write_gimp_gradient_file`, when the write is
reached at all: `main` only calls the writer after both
`parse_css_gradient` and `create_gimp_gradient` returned normally. -/
def writtenFile (css name : List Char) : Option (List Char) :=
  match runPipeline css name with
  | .ok content => some content
  | .error _ => none

example : pyFloatStr ⟨1, 2⟩ = chars "0.5" := by decide
example : pyFloatStr ⟨1, 1⟩ = chars "1.0" := by decide
example : pyFloatStr ⟨0, 1⟩ = chars "0.0" := by decide
example : pyFloatStr ⟨1, 4⟩ = chars "0.25" := by decide
example : pyFloatStr ⟨-1, 2⟩ = chars "-0.5" := by decide
example : intStr (-1) = chars "-1" := by decide
example : create_gimp_gradient (chars "G") [chars "#000000", chars "#ffffff"] =
    some (chars "GIMP Gradient\nName: G\n1\n0.0 0.5 1.0 0.0 0.0 0.0 1.0 1.0 1.0 1.0 1.0 0 0 0 0") := by decide
example : runPipeline (chars "linear-gradient(to right, #fbb040)") (chars "Custom Gradient") =
    .ok (chars "GIMP Gradient\nName: Custom Gradient\n0") := by decide

/-! ## Theorems -/

/-- C9: for every input, if any pipeline stage (parsing, color conversion /
segment building) fails, no file content is written: the content handed to
`write_gimp_gradient_file` exists exactly when `parse_css_gradient` and
`create_gimp_gradient` have both succeeded, and is their composed result. -/
theorem write_requires_pipeline_success : ∀ css name content : List Char,
    writtenFile css name = some content ↔
      ∃ colors, parse_css_gradient css = .ok colors ∧
        create_gimp_gradient name colors = some content := by
  intro css name content
  unfold writtenFile runPipeline
  cases hp : parse_css_gradient css with
  | error e => simp
  | ok colors0 =>
    cases hc : create_gimp_gradient name colors0 with
    | none => simp [hc]
    | some c => simp [hc]

/-- Witness for C9 at a concrete input: the two-color gradient
`linear-gradient(to right, #000000, #ffffff)` reaches the writer with the
full serialized file. -/
theorem write_requires_pipeline_success_witness :
    writtenFile (chars "linear-gradient(to right, #000000, #ffffff)") (chars "G") =
      some (chars "GIMP Gradient\nName: G\n1\n0.0 0.5 1.0 0.0 0.0 0.0 1.0 1.0 1.0 1.0 1.0 0 0 0 0") :=
  (write_requires_pipeline_success _ _ _).mpr
    ⟨[chars "#000000", chars "#ffffff"], by decide, by decide⟩

/-- C5 (failing input for the claim): on the single-color input
`linear-gradient(to right, #fbb040)` the program raises nothing at all —
`parse_css_gradient` returns the one-element token list, the pipeline
succeeds, and a zero-segment gradient file is written.  No
`TooFewColorsError` guard exists anywhere in `src/app.py`, contradicting
the spec's explicit requirement. -/
theorem single_color_writes_zero_segments :
    parse_css_gradient (chars "linear-gradient(to right, #fbb040)") = .ok [chars "#fbb040"] ∧
    runPipeline (chars "linear-gradient(to right, #fbb040)") (chars "Custom Gradient") =
      .ok (chars "GIMP Gradient\nName: Custom Gradient\n0") ∧
    writtenFile (chars "linear-gradient(to right, #fbb040)") (chars "Custom Gradient") =
      some (chars "GIMP Gradient\nName: Custom Gradient\n0") := by
  refine ⟨by decide, by decide, by decide⟩

/-- C7: once the regex matched, `parse_css_gradient` raises
`UnsupportedDirectionError` exactly when the direction clause (group 1, the
text between the opening parenthesis and the first comma) does not contain
`"to right"` as a substring. -/
theorem direction_error_iff : ∀ s dir rest : List Char, reMatch s = some (dir, rest) →
    (parse_css_gradient s = .error .unsupportedDirectionError ↔
      strIn (chars "to right") dir = false) := by
  intro s dir rest h
  unfold parse_css_gradient
  rw [h]
  cases hd : strIn (chars "to right") dir <;> simp [hd]

/-- Witness for C7: `"to left"` raises the direction error, `"to right top"`
(substring containment, not equality) is accepted. -/
theorem direction_error_iff_witness :
    parse_css_gradient (chars "linear-gradient(to left, #fff, #000)") =
      .error .unsupportedDirectionError ∧
    ¬ parse_css_gradient (chars "linear-gradient(to right top, #fff, #000)") =
      .error .unsupportedDirectionError := by
  constructor
  · exact (direction_error_iff _ (chars "to left") (chars "#fff, #000") (by decide)).mpr
      (by decide)
  · intro hcontra
    have h := (direction_error_iff (chars "linear-gradient(to right top, #fff, #000)")
      (chars "to right top") (chars "#fff, #000") (by decide)).mp hcontra
    exact absurd h (by decide)

/-- Counterexample to C8 as stated: `linear-gradient(to left, #fff, #000)`
matches the general `linear-gradient(<direction>, <colors...>)` shape (the
regex captures the direction clause `to left` and the remainder), yet
`parse_css_gradient` does not succeed — it raises
`UnsupportedDirectionError` — so success does NOT hold for every
shape-matching input. -/
theorem shape_match_not_sufficient :
    reMatch (chars "linear-gradient(to left, #fff, #000)") =
      some (chars "to left", chars "#fff, #000") ∧
    parse_css_gradient (chars "linear-gradient(to left, #fff, #000)") =
      .error .unsupportedDirectionError := by
  refine ⟨by decide, by decide⟩

/-- C8 (amended): `parse_css_gradient` fails with `FormatError` exactly
when the anchored regex `linear-gradient\(([^,]+),\s*(.+)\)` does not
match (the code's formalisation of "the general `linear-gradient(...)`
shape"); on a match it succeeds — returning the color remainder split on
commas with each token whitespace-stripped, in order — when the direction
clause contains `"to right"`, and raises `UnsupportedDirectionError` (not
success) when it does not. -/
theorem shape_error_and_tokens : ∀ s : List Char,
    (parse_css_gradient s = .error .formatError ↔ reMatch s = none) ∧
    (∀ dir rest : List Char, reMatch s = some (dir, rest) →
      (strIn (chars "to right") dir = true →
        parse_css_gradient s = .ok ((splitOnChar ',' rest).map pyStrip)) ∧
      (strIn (chars "to right") dir = false →
        parse_css_gradient s = .error .unsupportedDirectionError)) := by
  intro s
  constructor
  · unfold parse_css_gradient
    cases h : reMatch s with
    | none => simp
    | some p =>
      obtain ⟨dir, rest⟩ := p
      cases hd : strIn (chars "to right") dir <;> simp [hd]
  · intro dir rest h
    constructor
    · intro hd
      unfold parse_css_gradient
      rw [h]
      simp [hd]
    · intro hd
      unfold parse_css_gradient
      rw [h]
      simp [hd]

/-- Witness for the amended C8, exercising all three behaviours: a
non-matching input gets `FormatError`; a matching one with a good direction
returns the ordered, trimmed color tokens; a matching one with a bad
direction gets `UnsupportedDirectionError`. -/
theorem shape_error_and_tokens_witness :
    parse_css_gradient (chars "gradient(to right, #fff, #000)") = .error .formatError ∧
    parse_css_gradient (chars "linear-gradient(to right,   #fbb040 ,#fdb453  )") =
      .ok [chars "#fbb040", chars "#fdb453"] ∧
    parse_css_gradient (chars "linear-gradient(up, #fff, #000)") =
      .error .unsupportedDirectionError := by
  refine ⟨(shape_error_and_tokens _).1.mpr (by decide), ?_, ?_⟩
  · have h := ((shape_error_and_tokens
      (chars "linear-gradient(to right,   #fbb040 ,#fdb453  )")).2
      (chars "to right") (chars "#fbb040 ,#fdb453  ") (by decide)).1 (by decide)
    rw [h]
    decide
  · exact ((shape_error_and_tokens (chars "linear-gradient(up, #fff, #000)")).2
      (chars "up") (chars "#fff, #000") (by decide)).2 (by decide)

/-! ### Hex-conversion lemmas -/

lemma hexDigit?_le {c : Char} {d : ℕ} (h : hexDigit? c = some d) : d ≤ 15 := by
  unfold hexDigit? at h
  split_ifs at h with h1 h2 h3 <;> (injection h with h'; omega)

lemma ne_of_hexDigit {c c' : Char} {d : ℕ} (h : hexDigit? c = some d)
    (h' : hexDigit? c' = none) : c ≠ c' := by
  intro he
  rw [he, h'] at h
  exact Option.noConfusion h

lemma isPySpace_of_hexDigit {c : Char} {d : ℕ} (h : hexDigit? c = some d) :
    isPySpace c = false := by
  have h1 : c ≠ ' ' := ne_of_hexDigit h (by decide)
  have h2 : c ≠ '\t' := ne_of_hexDigit h (by decide)
  have h3 : c ≠ '\n' := ne_of_hexDigit h (by decide)
  have h4 : c ≠ '\r' := ne_of_hexDigit h (by decide)
  have h5 : c ≠ '\x0b' := ne_of_hexDigit h (by decide)
  have h6 : c ≠ '\x0c' := ne_of_hexDigit h (by decide)
  simp [isPySpace, h1, h2, h3, h4, h5, h6]

lemma pyStrip_pair {a b : Char} (ha : isPySpace a = false) (hb : isPySpace b = false) :
    pyStrip [a, b] = [a, b] := by
  simp [pyStrip, List.dropWhile_cons, ha, hb]

lemma hexCore_pair {a b : Char} {da db : ℕ} (ha : hexDigit? a = some da)
    (hb : hexDigit? b = some db) : hexCore [a, b] = some (16 * da + db) := by
  simp [hexCore, hexCoreAux, ha, hb]

lemma afterSign_pair {a b : Char} {da db : ℕ} (ha : hexDigit? a = some da)
    (hb : hexDigit? b = some db) : afterSign [a, b] = some (16 * da + db) := by
  have hbx : b ≠ 'x' := ne_of_hexDigit hb (by decide)
  have hbX : b ≠ 'X' := ne_of_hexDigit hb (by decide)
  simp [afterSign, hbx, hbX, hexCore_pair ha hb]

lemma pyIntHex_pair {a b : Char} {da db : ℕ} (ha : hexDigit? a = some da)
    (hb : hexDigit? b = some db) :
    pyIntHex [a, b] = some ((16 * da + db : ℕ) : ℤ) := by
  have hap : a ≠ '+' := ne_of_hexDigit ha (by decide)
  have ham : a ≠ '-' := ne_of_hexDigit ha (by decide)
  have hstrip : pyStrip [a, b] = [a, b] :=
    pyStrip_pair (isPySpace_of_hexDigit ha) (isPySpace_of_hexDigit hb)
  unfold pyIntHex
  rw [hstrip]
  simp [hap, ham, afterSign_pair ha hb]

lemma channel_bounds {v w : ℕ} (hv : v ≤ 15) (hw : w ≤ 15) :
    0 ≤ ((16 * v + w : ℕ) : ℚ) / 255 ∧ ((16 * v + w : ℕ) : ℚ) / 255 ≤ 1 := by
  constructor
  · positivity
  · rw [div_le_one (by norm_num)]
    exact_mod_cast (by omega : (16 * v + w : ℕ) ≤ 255)

/-- C3: on a token `'#'` followed by six hexadecimal digits, `hex_to_rgb`
strips the `#`, parses the three 2-digit slices as base-16 integers and
divides by 255, and each resulting channel lies in `[0, 1]`. -/
theorem hex_pairs_scaled :
    ∀ (a b c d e f : Char) (va vb vc vd ve vf : ℕ),
    hexDigit? a = some va → hexDigit? b = some vb → hexDigit? c = some vc →
    hexDigit? d = some vd → hexDigit? e = some ve → hexDigit? f = some vf →
    hexRGB ('#' :: [a, b, c, d, e, f]) =
      some (((16 * va + vb : ℕ) : ℚ) / 255, ((16 * vc + vd : ℕ) : ℚ) / 255,
        ((16 * ve + vf : ℕ) : ℚ) / 255) ∧
    (0 ≤ ((16 * va + vb : ℕ) : ℚ) / 255 ∧ ((16 * va + vb : ℕ) : ℚ) / 255 ≤ 1) ∧
    (0 ≤ ((16 * vc + vd : ℕ) : ℚ) / 255 ∧ ((16 * vc + vd : ℕ) : ℚ) / 255 ≤ 1) ∧
    (0 ≤ ((16 * ve + vf : ℕ) : ℚ) / 255 ∧ ((16 * ve + vf : ℕ) : ℚ) / 255 ≤ 1) := by
  intro a b c d e f va vb vc vd ve vf ha hb hc hd he hf
  have hah : a ≠ '#' := ne_of_hexDigit ha (by decide)
  have ht : ('#' :: [a, b, c, d, e, f]).dropWhile (fun x => x = '#') = [a, b, c, d, e, f] := by
    simp [List.dropWhile_cons, hah]
  have hmain : hex_to_rgb ('#' :: [a, b, c, d, e, f]) =
      some (⟨((16 * va + vb : ℕ) : ℤ), 255⟩, ⟨((16 * vc + vd : ℕ) : ℤ), 255⟩,
        ⟨((16 * ve + vf : ℕ) : ℤ), 255⟩) := by
    simp only [hex_to_rgb]
    rw [ht]
    have e1 : pySlice [a, b, c, d, e, f] 0 2 = [a, b] := rfl
    have e2 : pySlice [a, b, c, d, e, f] 2 4 = [c, d] := rfl
    have e3 : pySlice [a, b, c, d, e, f] 4 6 = [e, f] := rfl
    rw [e1, e2, e3, pyIntHex_pair ha hb, pyIntHex_pair hc hd, pyIntHex_pair he hf]
  refine ⟨?_, channel_bounds (hexDigit?_le ha) (hexDigit?_le hb),
    channel_bounds (hexDigit?_le hc) (hexDigit?_le hd),
    channel_bounds (hexDigit?_le he) (hexDigit?_le hf)⟩
  unfold hexRGB
  rw [hmain]
  simp [PyFloat.toRat]

/-- Witness for C3 at the two concrete tokens the spec names. -/
theorem hex_pairs_scaled_witness :
    hexRGB (chars "#000000") = some (0, 0, 0) ∧ hexRGB (chars "#ffffff") = some (1, 1, 1) := by
  constructor
  · have h := (hex_pairs_scaled '0' '0' '0' '0' '0' '0' 0 0 0 0 0 0
      (by decide) (by decide) (by decide) (by decide) (by decide) (by decide)).1
    have hcs : chars "#000000" = '#' :: ['0', '0', '0', '0', '0', '0'] := by decide
    rw [hcs, h]
    norm_num
  · have h := (hex_pairs_scaled 'f' 'f' 'f' 'f' 'f' 'f' 15 15 15 15 15 15
      (by decide) (by decide) (by decide) (by decide) (by decide) (by decide)).1
    have hcs : chars "#ffffff" = '#' :: ['f', 'f', 'f', 'f', 'f', 'f'] := by decide
    rw [hcs, h]
    norm_num

/-- C10: `hex_to_rgb` removes every leading `'#'` and reads only the first
six characters of the remainder; whenever those six characters are hex
digits, it succeeds with their conversion, whatever follows them. -/
theorem hex_strip_all_ignore_trailing :
    ∀ (s : List Char) (a b c d e f : Char) (va vb vc vd ve vf : ℕ),
    (s.dropWhile (fun x => x = '#')).take 6 = [a, b, c, d, e, f] →
    hexDigit? a = some va → hexDigit? b = some vb → hexDigit? c = some vc →
    hexDigit? d = some vd → hexDigit? e = some ve → hexDigit? f = some vf →
    hexRGB s =
      some (((16 * va + vb : ℕ) : ℚ) / 255, ((16 * vc + vd : ℕ) : ℚ) / 255,
        ((16 * ve + vf : ℕ) : ℚ) / 255) := by
  intro s a b c d e f va vb vc vd ve vf ht ha hb hc hd he hf
  have hsplit : s.dropWhile (fun x => x = '#') =
      [a, b, c, d, e, f] ++ (s.dropWhile (fun x => x = '#')).drop 6 := by
    conv_lhs => rw [← List.take_append_drop 6 (s.dropWhile (fun x => x = '#'))]
    rw [ht]
  have e1 : pySlice (s.dropWhile (fun x => x = '#')) 0 2 = [a, b] := by
    rw [pySlice, hsplit]
    rfl
  have e2 : pySlice (s.dropWhile (fun x => x = '#')) 2 4 = [c, d] := by
    rw [pySlice, hsplit]
    rfl
  have e3 : pySlice (s.dropWhile (fun x => x = '#')) 4 6 = [e, f] := by
    rw [pySlice, hsplit]
    rfl
  have hmain : hex_to_rgb s =
      some (⟨((16 * va + vb : ℕ) : ℤ), 255⟩, ⟨((16 * vc + vd : ℕ) : ℤ), 255⟩,
        ⟨((16 * ve + vf : ℕ) : ℤ), 255⟩) := by
    simp only [hex_to_rgb]
    rw [e1, e2, e3, pyIntHex_pair ha hb, pyIntHex_pair hc hd, pyIntHex_pair he hf]
  unfold hexRGB
  rw [hmain]
  simp [PyFloat.toRat]

/-- Witness for C10 at the two concrete tokens of the claim: a doubled `#`
and trailing garbage both still convert to pure red. -/
theorem hex_strip_all_ignore_trailing_witness :
    hexRGB (chars "##ff0000") = some (1, 0, 0) ∧
    hexRGB (chars "#ff0000zz") = some (1, 0, 0) := by
  constructor
  · have h := hex_strip_all_ignore_trailing (chars "##ff0000") 'f' 'f' '0' '0' '0' '0'
      15 15 0 0 0 0 (by decide) (by decide) (by decide) (by decide) (by decide)
      (by decide) (by decide)
    rw [h]
    norm_num
  · have h := hex_strip_all_ignore_trailing (chars "#ff0000zz") 'f' 'f' '0' '0' '0' '0'
      15 15 0 0 0 0 (by decide) (by decide) (by decide) (by decide) (by decide)
      (by decide) (by decide)
    rw [h]
    norm_num

/-- The literal condition of claim C6: after stripping ONE optional leading
`#`, the remainder is exactly six hexadecimal digits. -/
def stripOneHash (s : List Char) : List Char :=
  match s with
  | [] => []
  | c :: t => if c = '#' then t else c :: t

/-- Exactly six hexadecimal digits. -/
def isSixHexDigits (s : List Char) : Bool :=
  s.length = 6 && s.all (fun c => (hexDigit? c).isSome)

/-- Counterexample to C6 as stated: the token `"#ff0000zz"` leaves
`"ff0000zz"` after stripping the optional `#`, which is not exactly six hex
digits, yet `hex_to_rgb` succeeds (with pure red) instead of failing. -/
theorem hex_err_claim_counterexample :
    isSixHexDigits (stripOneHash (chars "#ff0000zz")) = false ∧
    hex_to_rgb (chars "#ff0000zz") = some (⟨255, 255⟩, ⟨0, 255⟩, ⟨0, 255⟩) := by
  refine ⟨by decide, by decide⟩

/-- C6 (amended): `hex_to_rgb` fails — the `ValueError` the spec calls
`InvalidColorError` — exactly when one of the three 2-character slices at
offsets 0, 2, 4 of the string left after stripping all leading `#`
characters does not parse as a base-16 integer; in particular the token
`"#xyz123"` fails. -/
theorem hex_err_iff_bad_slice :
    (∀ s : List Char,
      (hex_to_rgb s = none ↔
        pyIntHex (pySlice (s.dropWhile (fun c => c = '#')) 0 2) = none ∨
        pyIntHex (pySlice (s.dropWhile (fun c => c = '#')) 2 4) = none ∨
        pyIntHex (pySlice (s.dropWhile (fun c => c = '#')) 4 6) = none)) ∧
    hex_to_rgb (chars "#xyz123") = none := by
  constructor
  · intro s
    simp only [hex_to_rgb]
    cases h1 : pyIntHex (pySlice (s.dropWhile (fun c => c = '#')) 0 2) <;>
      cases h2 : pyIntHex (pySlice (s.dropWhile (fun c => c = '#')) 2 4) <;>
        cases h3 : pyIntHex (pySlice (s.dropWhile (fun c => c = '#')) 4 6) <;>
          simp
  · decide

/-- Witness for the amended C6: a short token fails through the first
slice. -/
theorem hex_err_iff_bad_slice_witness : hex_to_rgb (chars "#zz0000") = none :=
  (hex_err_iff_bad_slice.1 (chars "#zz0000")).mpr (Or.inl (by decide))

/-! ### Segment-builder lemmas -/

lemma segAt_fields {colors : List (List Char)} {n i : ℕ} {s : Segment}
    (h : segAt colors n i = some s) :
    s.left = pfDiv i n ∧ s.mid = pfAvg (pfDiv i n) (pfDiv (i + 1) n) ∧
    s.right = pfDiv (i + 1) n ∧ s.la = ⟨1, 1⟩ ∧ s.ra = ⟨1, 1⟩ ∧
    s.blend = 0 ∧ s.coloring = 0 ∧ s.ltype = 0 ∧ s.rtype = 0 := by
  unfold segAt at h
  cases hc1 : hex_to_rgb (colors.getD i []) with
  | none => rw [hc1] at h; exact absurd h (by simp)
  | some t1 =>
    cases hc2 : hex_to_rgb (colors.getD (i + 1) []) with
    | none => rw [hc1, hc2] at h; exact absurd h (by simp)
    | some t2 =>
      rw [hc1, hc2] at h
      obtain ⟨cr, cg, cb⟩ := t1
      obtain ⟨dr, dg, db⟩ := t2
      simp only [Option.some.injEq] at h
      subst h
      exact ⟨rfl, rfl, rfl, rfl, rfl, rfl, rfl, rfl, rfl⟩

lemma segsFrom_spec : ∀ (k i : ℕ) (colors : List (List Char)) (n : ℕ) (l : List Segment),
    segsFrom colors n i k = some l →
    l.length = k ∧ ∀ j (h : j < l.length), segAt colors n (i + j) = some (l.get ⟨j, h⟩) := by
  intro k
  induction k with
  | zero =>
    intro i colors n l h
    simp only [segsFrom, Option.some.injEq] at h
    subst h
    exact ⟨rfl, fun j h => absurd h (by simp)⟩
  | succ k ih =>
    intro i colors n l h
    simp only [segsFrom] at h
    cases h1 : segAt colors n i with
    | none => rw [h1] at h; exact absurd h (by simp)
    | some s =>
      rw [h1] at h
      cases h2 : segsFrom colors n (i + 1) k with
      | none => rw [h2] at h; exact absurd h (by simp)
      | some rest =>
        rw [h2] at h
        simp only [Option.some.injEq] at h
        subst h
        obtain ⟨hlen, hget⟩ := ih (i + 1) colors n rest h2
        refine ⟨by simp [hlen], ?_⟩
        intro j hj
        cases j with
        | zero => simpa using h1
        | succ j' =>
          have hj' : j' < rest.length := by
            simpa using Nat.lt_of_succ_lt_succ hj
          have := hget j' hj'
          rw [List.get_cons_succ]
          rw [show i + (j' + 1) = i + 1 + j' by omega]
          exact this

lemma pfDiv_toRat (i : ℤ) (n : ℕ) : (pfDiv i n).toRat = (i : ℚ) / (n : ℚ) := rfl

lemma pfAvg_toRat {a b : PyFloat} (ha : a.den ≠ 0) (hb : b.den ≠ 0) :
    (pfAvg a b).toRat = (a.toRat + b.toRat) / 2 := by
  have ha' : ((a.den : ℕ) : ℚ) ≠ 0 := Nat.cast_ne_zero.mpr ha
  have hb' : ((b.den : ℕ) : ℚ) ≠ 0 := Nat.cast_ne_zero.mpr hb
  unfold pfAvg PyFloat.toRat
  push_cast
  field_simp

lemma pfDiv_den (i : ℤ) (n : ℕ) : (pfDiv i n).den = n := rfl

/-- C1: for every list of `N ≥ 2` colors that converts, segment `i`
(0-based) has left endpoint `i / (N-1)`, right endpoint `(i+1) / (N-1)`,
and midpoint the arithmetic mean of the two; consequently the first
segment's left endpoint is exactly `0`, the last segment's right endpoint
is exactly `1`, and each segment's right endpoint equals the next
segment's left endpoint. -/
theorem segment_positions_partition :
    ∀ (colors : List (List Char)) (segs : List Segment),
    2 ≤ colors.length → buildSegments colors = some segs →
    segs.length = colors.length - 1 ∧
    (∀ j (h : j < segs.length),
      (segs.get ⟨j, h⟩).left.toRat = (j : ℚ) / ((colors.length : ℚ) - 1) ∧
      (segs.get ⟨j, h⟩).right.toRat = ((j : ℚ) + 1) / ((colors.length : ℚ) - 1) ∧
      (segs.get ⟨j, h⟩).mid.toRat =
        ((segs.get ⟨j, h⟩).left.toRat + (segs.get ⟨j, h⟩).right.toRat) / 2) ∧
    (∀ h0 : 0 < segs.length, (segs.get ⟨0, h0⟩).left.toRat = 0) ∧
    (∀ hl : segs.length - 1 < segs.length,
      (segs.get ⟨segs.length - 1, hl⟩).right.toRat = 1) ∧
    (∀ j (h : j + 1 < segs.length),
      (segs.get ⟨j, Nat.lt_of_succ_lt h⟩).right.toRat = (segs.get ⟨j + 1, h⟩).left.toRat) := by
  intro colors segs h2 hb
  unfold buildSegments at hb
  obtain ⟨hlen, hget⟩ := segsFrom_spec (colors.length - 1) 0 colors (colors.length - 1) segs hb
  have hden : ((colors.length - 1 : ℕ) : ℚ) = (colors.length : ℚ) - 1 := by
    rw [Nat.cast_sub (by omega : 1 ≤ colors.length)]
    norm_num
  have hdenne : ((colors.length : ℚ) - 1) ≠ 0 := by
    have : (2 : ℚ) ≤ (colors.length : ℚ) := by exact_mod_cast h2
    linarith
  have key : ∀ j (h : j < segs.length),
      (segs.get ⟨j, h⟩).left = pfDiv j (colors.length - 1) ∧
      (segs.get ⟨j, h⟩).mid =
        pfAvg (pfDiv j (colors.length - 1)) (pfDiv (j + 1) (colors.length - 1)) ∧
      (segs.get ⟨j, h⟩).right = pfDiv (j + 1) (colors.length - 1) := by
    intro j h
    have hj := hget j h
    rw [Nat.zero_add] at hj
    obtain ⟨f1, f2, f3, _⟩ := segAt_fields hj
    exact ⟨f1, f2, f3⟩
  have rats : ∀ j (h : j < segs.length),
      (segs.get ⟨j, h⟩).left.toRat = (j : ℚ) / ((colors.length : ℚ) - 1) ∧
      (segs.get ⟨j, h⟩).right.toRat = ((j : ℚ) + 1) / ((colors.length : ℚ) - 1) ∧
      (segs.get ⟨j, h⟩).mid.toRat =
        ((segs.get ⟨j, h⟩).left.toRat + (segs.get ⟨j, h⟩).right.toRat) / 2 := by
    intro j h
    obtain ⟨f1, f2, f3⟩ := key j h
    have hA : (pfDiv (j : ℤ) (colors.length - 1)).den ≠ 0 := by
      rw [pfDiv_den]; omega
    have hB : (pfDiv ((j : ℤ) + 1) (colors.length - 1)).den ≠ 0 := by
      rw [pfDiv_den]; omega
    refine ⟨?_, ?_, ?_⟩
    · rw [f1, pfDiv_toRat, hden]
      push_cast
      ring
    · rw [f3, pfDiv_toRat, hden]
      push_cast
      ring
    · rw [f2, f1, f3, pfAvg_toRat hA hB]
  refine ⟨hlen, rats, ?_, ?_, ?_⟩
  · intro h0
    have h := (rats 0 h0).1
    rw [h]
    simp
  · intro hl
    have h := (rats (segs.length - 1) hl).2.1
    rw [h, hlen]
    have e : ((colors.length - 1 - 1 : ℕ) : ℚ) + 1 = ((colors.length - 1 : ℕ) : ℚ) := by
      exact_mod_cast (by omega : colors.length - 1 - 1 + 1 = colors.length - 1)
    rw [e, hden]
    exact div_self hdenne
  · intro j h
    have h1 := (rats j (Nat.lt_of_succ_lt h)).2.1
    have h2 := (rats (j + 1) h).1
    rw [h1, h2]
    push_cast
    ring

/-- The one segment built for the two-color gradient `#000000 → #ffffff`. -/
def demoSeg : Segment :=
  ⟨⟨0, 1⟩, ⟨1, 2⟩, ⟨1, 1⟩, ⟨0, 255⟩, ⟨0, 255⟩, ⟨0, 255⟩, ⟨1, 1⟩,
   ⟨255, 255⟩, ⟨255, 255⟩, ⟨255, 255⟩, ⟨1, 1⟩, 0, 0, 0, 0⟩

/-- Witness for C1: the two-color gradient has one segment running from 0
to 1 with midpoint the mean one half. -/
theorem segment_positions_partition_witness :
    buildSegments [chars "#000000", chars "#ffffff"] = some [demoSeg] ∧
    demoSeg.left.toRat = 0 ∧ demoSeg.right.toRat = 1 ∧
    demoSeg.mid.toRat = (demoSeg.left.toRat + demoSeg.right.toRat) / 2 := by
  have hb : buildSegments [chars "#000000", chars "#ffffff"] = some [demoSeg] := by decide
  obtain ⟨hlen, rats, hfirst, hlast, _⟩ :=
    segment_positions_partition [chars "#000000", chars "#ffffff"] [demoSeg] (by decide) hb
  refine ⟨hb, hfirst (by decide), ?_, (rats 0 (by decide)).2.2⟩
  simpa using hlast (by decide)

lemma intStr_of_nonneg {z : ℤ} (h : 0 ≤ z) : intStr z = natDigits z.toNat := by
  unfold intStr
  rw [if_neg (by omega)]

/-- C2: for every valid input with `N ≥ 2` color stops, the serialized
content declares exactly `N - 1` segments: the third line is the decimal
numeral `N - 1` and exactly `N - 1` segment lines follow the header. -/
theorem segment_count_lines :
    ∀ (name : List Char) (colors : List (List Char)) (ls : List (List Char)),
    2 ≤ colors.length → gradientLines name colors = some ls →
    ∃ segLs : List (List Char),
      ls = [chars "GIMP Gradient", chars "Name: " ++ name,
        natDigits (colors.length - 1)] ++ segLs ∧
      segLs.length = colors.length - 1 := by
  intro name colors ls h2 hg
  unfold gradientLines at hg
  cases hb : buildSegments colors with
  | none => rw [hb] at hg; exact absurd hg (by simp)
  | some segs =>
    rw [hb] at hg
    simp only [Option.some.injEq] at hg
    have hcount : intStr ((colors.length : ℤ) - 1) = natDigits (colors.length - 1) := by
      rw [intStr_of_nonneg (by omega : (0 : ℤ) ≤ (colors.length : ℤ) - 1)]
      congr 1
      omega
    have hlen : segs.length = colors.length - 1 := by
      unfold buildSegments at hb
      exact (segsFrom_spec (colors.length - 1) 0 colors (colors.length - 1) segs hb).1
    refine ⟨segs.map segLine, ?_, by simp [hlen]⟩
    rw [← hg, hcount]

/-- The serialized lines for the two-color demo gradient. -/
def demoLines : List (List Char) :=
  [chars "GIMP Gradient", chars "Name: G", chars "1",
   chars "0.0 0.5 1.0 0.0 0.0 0.0 1.0 1.0 1.0 1.0 1.0 0 0 0 0"]

/-- Witness for C2: two colors produce the count line `1` and exactly one
segment line after the header. -/
theorem segment_count_lines_witness :
    gradientLines (chars "G") [chars "#000000", chars "#ffffff"] = some demoLines ∧
    demoLines = [chars "GIMP Gradient", chars "Name: " ++ chars "G",
      natDigits ([chars "#000000", chars "#ffffff"].length - 1)] ++ demoLines.drop 3 ∧
    (demoLines.drop 3).length = [chars "#000000", chars "#ffffff"].length - 1 := by
  have hq : gradientLines (chars "G") [chars "#000000", chars "#ffffff"] = some demoLines := by
    decide
  obtain ⟨segLs, hE, hL⟩ := segment_count_lines (chars "G") _ demoLines (by decide) hq
  have hdrop : demoLines.drop 3 = segLs := by
    rw [hE]
    rfl
  rw [hdrop]
  exact ⟨hq, hE, hL⟩

/-- Characters allowed inside a serialized numeric token: anything except
the two join separators (space within a line, newline between lines). -/
def goodCh (c : Char) : Prop := c ≠ ' ' ∧ c ≠ '\n'

lemma digitCh_good (d : ℕ) : goodCh (digitCh d) := by
  unfold goodCh digitCh
  split_ifs <;> exact ⟨by decide, by decide⟩

lemma natDigitsAux_good : ∀ (fuel n : ℕ) (acc : List Char),
    (∀ c ∈ acc, goodCh c) → ∀ c ∈ natDigitsAux fuel n acc, goodCh c := by
  intro fuel
  induction fuel with
  | zero => intro n acc hacc c hc; exact hacc c hc
  | succ fuel ih =>
    intro n acc hacc c hc
    simp only [natDigitsAux] at hc
    split at hc
    · rcases List.mem_cons.mp hc with h | h
      · subst h; exact digitCh_good n
      · exact hacc c h
    · refine ih _ _ ?_ c hc
      intro c' hc'
      rcases List.mem_cons.mp hc' with h | h
      · subst h; exact digitCh_good _
      · exact hacc c' h

lemma natDigitsAux_ne_nil : ∀ (fuel n : ℕ) (acc : List Char),
    natDigitsAux (fuel + 1) n acc ≠ [] := by
  intro fuel
  induction fuel with
  | zero =>
    intro n acc
    simp only [natDigitsAux]
    split <;> simp [natDigitsAux]
  | succ fuel ih =>
    intro n acc
    simp only [natDigitsAux]
    split
    · simp
    · exact ih _ _

lemma natDigits_good (n : ℕ) : natDigits n ≠ [] ∧ ∀ c ∈ natDigits n, goodCh c :=
  ⟨natDigitsAux_ne_nil n n [], natDigitsAux_good (n + 1) n [] (by simp)⟩

lemma fracDigits_good : ∀ (k rem den : ℕ), ∀ c ∈ fracDigits k rem den, goodCh c := by
  intro k
  induction k with
  | zero => intro rem den c hc; simp [fracDigits] at hc
  | succ k ih =>
    intro rem den c hc
    simp only [fracDigits] at hc
    rcases List.mem_cons.mp hc with h | h
    · subst h; exact digitCh_good _
    · exact ih _ _ c h

lemma fracPart_good (rem den : ℕ) : fracPart rem den ≠ [] ∧ ∀ c ∈ fracPart rem den, goodCh c := by
  simp only [fracPart]
  split_ifs with hT
  · exact ⟨by simp, by intro c hc; rcases List.mem_singleton.mp hc with rfl; exact digitCh_good 0⟩
  · refine ⟨hT, ?_⟩
    intro c hc
    rw [List.mem_reverse] at hc
    have hc2 : c ∈ (fracDigits 17 rem den).reverse :=
      (List.dropWhile_sublist (fun c => c = '0')).mem hc
    rw [List.mem_reverse] at hc2
    exact fracDigits_good 17 rem den c hc2

lemma pyFloatStrNat_good (num den : ℕ) :
    pyFloatStrNat num den ≠ [] ∧ ∀ c ∈ pyFloatStrNat num den, goodCh c := by
  unfold pyFloatStrNat
  constructor
  · intro h
    rcases List.append_eq_nil.mp h with ⟨h1, _⟩
    exact (natDigits_good (num / den)).1 h1
  · intro c hc
    rcases List.mem_append.mp hc with h | h
    · exact (natDigits_good _).2 c h
    · rcases List.mem_cons.mp h with h | h
      · subst h; exact ⟨by decide, by decide⟩
      · exact (fracPart_good _ _).2 c h

lemma pyFloatStr_good (p : PyFloat) : pyFloatStr p ≠ [] ∧ ∀ c ∈ pyFloatStr p, goodCh c := by
  unfold pyFloatStr
  split_ifs
  · constructor
    · simp
    · intro c hc
      rcases List.mem_cons.mp hc with h | h
      · subst h; exact ⟨by decide, by decide⟩
      · exact (pyFloatStrNat_good _ _).2 c h
  · exact pyFloatStrNat_good _ _

lemma intStr_good (z : ℤ) : intStr z ≠ [] ∧ ∀ c ∈ intStr z, goodCh c := by
  unfold intStr
  split_ifs
  · constructor
    · simp
    · intro c hc
      rcases List.mem_cons.mp hc with h | h
      · subst h; exact ⟨by decide, by decide⟩
      · exact (natDigits_good _).2 c h
  · exact natDigits_good _

lemma pyValStr_good : ∀ v : PyVal, pyValStr v ≠ [] ∧ ∀ c ∈ pyValStr v, goodCh c
  | .f p => pyFloatStr_good p
  | .i z => intStr_good z

/-- C4: for every name and valid list of `N ≥ 2` colors, the serialized
output is the newline-join of: the literal line `GIMP Gradient`, the line
`Name: <name>`, the decimal segment count `N - 1`, and one line per
segment, each the space-join of exactly 15 numeric tokens in the fixed
order left, mid, right, leftR, leftG, leftB, leftA, rightR, rightG,
rightB, rightA, blend, coloring, leftType, rightType, with both alpha
values `1.0` and all four selector values `0`; every token is nonempty and
free of separators. -/
theorem serialization_layout :
    ∀ (name : List Char) (colors : List (List Char)) (ls : List (List Char)),
    2 ≤ colors.length → gradientLines name colors = some ls →
    ∃ segs : List Segment,
      buildSegments colors = some segs ∧
      create_gimp_gradient name colors = some (joinSep '\n' ls) ∧
      ls = [chars "GIMP Gradient", chars "Name: " ++ name,
        intStr ((colors.length : ℤ) - 1)] ++ segs.map segLine ∧
      intStr ((colors.length : ℤ) - 1) = natDigits (colors.length - 1) ∧
      ∀ s ∈ segs,
        segTokens s =
          [.f s.left, .f s.mid, .f s.right, .f s.lr, .f s.lg, .f s.lb, .f ⟨1, 1⟩,
            .f s.rr, .f s.rg, .f s.rb, .f ⟨1, 1⟩, .i 0, .i 0, .i 0, .i 0] ∧
        (segTokens s).length = 15 ∧
        segLine s = joinSep ' ' ((segTokens s).map pyValStr) ∧
        ∀ t ∈ (segTokens s).map pyValStr, t ≠ [] ∧ ∀ c ∈ t, c ≠ ' ' ∧ c ≠ '\n' := by
  intro name colors ls h2 hg
  have hgl := hg
  unfold gradientLines at hgl
  cases hb : buildSegments colors with
  | none => rw [hb] at hgl; exact absurd hgl (by simp)
  | some segs =>
    rw [hb] at hgl
    simp only [Option.some.injEq] at hgl
    refine ⟨segs, rfl, ?_, hgl.symm, ?_, ?_⟩
    · simp [create_gimp_gradient, hg]
    · rw [intStr_of_nonneg (by omega : (0 : ℤ) ≤ (colors.length : ℤ) - 1)]
      congr 1
      omega
    · intro s hs
      obtain ⟨⟨j, hj⟩, hsg⟩ := List.mem_iff_get.mp hs
      unfold buildSegments at hb
      have hj' := (segsFrom_spec (colors.length - 1) 0 colors (colors.length - 1) segs hb).2 j hj
      rw [Nat.zero_add, hsg] at hj'
      obtain ⟨_, _, _, fla, fra, fb, fc, fl, fr⟩ := segAt_fields hj'
      refine ⟨?_, rfl, rfl, ?_⟩
      · unfold segTokens
        rw [fla, fra, fb, fc, fl, fr]
      · intro t ht
        obtain ⟨v, hv, rfl⟩ := List.mem_map.mp ht
        exact ⟨(pyValStr_good v).1, fun c hc => (pyValStr_good v).2 c hc⟩

/-- Witness for C4 at the two-color gradient: full header and the single
15-token segment line. -/
theorem serialization_layout_witness :
    gradientLines (chars "G") [chars "#000000", chars "#ffffff"] = some demoLines ∧
    create_gimp_gradient (chars "G") [chars "#000000", chars "#ffffff"] =
      some (joinSep '\x0a' demoLines) ∧
    demoLines = [chars "GIMP Gradient", chars "Name: " ++ chars "G",
      intStr (([chars "#000000", chars "#ffffff"].length : ℤ) - 1)] ++
        [segLine demoSeg] := by
  have hq : gradientLines (chars "G") [chars "#000000", chars "#ffffff"] = some demoLines := by
    decide
  obtain ⟨segs, hb, hcreate, hE, _, _⟩ :=
    serialization_layout (chars "G") _ demoLines (by decide) hq
  have hb2 : buildSegments [chars "#000000", chars "#ffffff"] = some [demoSeg] := by decide
  rw [hb2] at hb
  have hsegs : segs = [demoSeg] := by
    injection hb with hb3
    exact hb3.symm
  rw [hsegs] at hE
  exact ⟨hq, hcreate, hE⟩
